import Mathlib

/-!
Shallow embedding of the issue record store of `src/app.py`
(Crowd Issue Reporting, Streamlit).  Python dict records become a
structure with `Option` fields where the code reads them through
`dict.get` with a default; the JSON database file becomes a `Storage`
value; every mutation is the source's load-all / patch-first-match /
save-all.  Python string operations are modelled executably over the
code-point list `String.data`.
-/

namespace CrowdIssue

/-- One entry of a record's `updates` log, as built at line 136 and 167
of `app.py`: a dict with keys `ts`, `text`, `status`. -/
structure UpdateEntry where
  ts : Int
  text : String
  status : String
deriving DecidableEq

/-- An issue record as persisted in `issues.json` (see `new_issue_payload`,
`app.py` lines 111-137).  Fields that `app.py` reads through `dict.get`
with a default (`status`, `votes`, `updates`) or that may be JSON `null`
(`lat`, `lng`, `image_path`) are `Option`s; numeric coordinates are
modelled as rationals. -/
structure Issue where
  id : String
  title : String
  description : String
  category : String
  status : Option String
  lat : Option Rat
  lng : Option Rat
  address : String
  image_path : Option String
  votes : Option Int
  created_at : String
  created_by : String
  updates : Option (List UpdateEntry)
deriving DecidableEq

/-- Content of the database file `DB_FILE`: either it decodes as a JSON
array of issue records, or `json.load` raises `JSONDecodeError`. -/
inductive StoredDoc where
  | decoded : List Issue → StoredDoc
  | undecodable : StoredDoc
deriving DecidableEq

/-- The persisted state; `none` models "DB_FILE does not exist". -/
structure Storage where
  file : Option StoredDoc
deriving DecidableEq

/-- Python `str.strip()`: drop whitespace at both ends of the
code-point list. -/
def pyStrip (s : String) : String :=
  String.mk (((s.data.dropWhile Char.isWhitespace).reverse.dropWhile Char.isWhitespace).reverse)

/-- Python `str.lower()`: lower-case every code point. -/
def pyLower (s : String) : String :=
  String.mk (s.data.map Char.toLower)

/-- Python substring test `needle in hay`. -/
def pyIn (needle hay : String) : Prop :=
  needle.data <:+: hay.data

instance (n h : String) : Decidable (pyIn n h) :=
  inferInstanceAs (Decidable (n.data <:+: h.data))

/-- `it.get("votes", 0)` (`app.py` line 157). -/
def votesOf (it : Issue) : Int :=
  it.votes.getD 0

/-- `it.get("status", "open")` (`app.py` line 167). -/
def statusOf (it : Issue) : String :=
  it.status.getD "open"

/-- `it.get("updates", [])` (`app.py` line 166). -/
def updatesOf (it : Issue) : List UpdateEntry :=
  it.updates.getD []

/-- `load_data` (`app.py` lines 67-74): missing file gives `[]`, a
`JSONDecodeError` is caught and gives `[]`, otherwise the decoded
array is returned. -/
def load_data (s : Storage) : List Issue :=
  match s.file with
  | some (StoredDoc.decoded items) => items
  | some StoredDoc.undecodable => []
  | none => []

/-- `save_data` (`app.py` lines 76-78): overwrite the file with the
serialized collection. -/
def save_data (items : List Issue) : Storage :=
  { file := some (StoredDoc.decoded items) }

/-- The loop shape shared by `update_issue`, `upvote_issue` and
`add_update`: patch the first record satisfying the predicate and
`break`. -/
def updateFirst (p : Issue → Bool) (f : Issue → Issue) : List Issue → List Issue
  | [] => []
  | it :: rest => if p it then f it :: rest else it :: updateFirst p f rest

/-- `new_issue_payload` (`app.py` lines 111-137).  The generated uuid,
session user id, current time and upload path are effects of the
environment and enter as parameters. -/
def new_issue_payload (issue_id user_id : String) (title description category : String)
    (lat lng : Rat) (address : String) (image_path : Option String)
    (created_at : String) (ts : Int) : Issue :=
  { id := issue_id
    title := pyStrip title
    description := pyStrip description
    category := category
    status := some "open"
    lat := some lat
    lng := some lng
    address := pyStrip address
    image_path := image_path
    votes := some 0
    created_at := created_at
    created_by := user_id
    updates := some [{ ts := ts, text := "Issue reported", status := "open" }] }

/-- `add_issue` (`app.py` lines 139-142). -/
def add_issue (issue : Issue) (s : Storage) : Storage :=
  save_data (load_data s ++ [issue])

/-- `update_issue` (`app.py` lines 144-151); the dict merge
`it.update(patch)` is the function `patch` applied to the record. -/
def update_issue (issue_id : String) (patch : Issue → Issue) (s : Storage) : Storage :=
  save_data (updateFirst (fun it => it.id == issue_id) patch (load_data s))

/-- The patch persisted by the geocode back-fill path
(`app.py` line 223). -/
def backfillPatch (lat lng : Rat) (it : Issue) : Issue :=
  { it with lat := some lat, lng := some lng }

/-- The in-place patch of `upvote_issue`:
`it["votes"] = int(it.get("votes", 0)) + 1` (line 157). -/
def bumpVotes (it : Issue) : Issue :=
  { it with votes := some (votesOf it + 1) }

/-- `upvote_issue` (`app.py` lines 153-160). -/
def upvote_issue (issue_id : String) (s : Storage) : Storage :=
  save_data (updateFirst (fun it => it.id == issue_id) bumpVotes (load_data s))

/-- Python truthiness of the optional `status` argument of `add_update`:
`None` and `""` are falsy. -/
def truthy : Option String → Bool
  | none => false
  | some s => s != ""

/-- `status or it.get("status", "open")` (`app.py` line 167). -/
def entryStatus (status : Option String) (it : Issue) : String :=
  match status with
  | some st => if st != "" then st else statusOf it
  | none => statusOf it

/-- The in-place patch of `add_update` (`app.py` lines 166-170):
append one log entry, and overwrite `status` only when the argument is
truthy. -/
def applyUpdate (text : String) (ts : Int) (status : Option String) (it : Issue) : Issue :=
  let it1 := { it with
    updates := some (updatesOf it ++ [{ ts := ts, text := text, status := entryStatus status it }]) }
  if truthy status then { it1 with status := status } else it1

/-- `add_update` (`app.py` lines 162-173). -/
def add_update (issue_id text : String) (ts : Int) (status : Option String) (s : Storage) : Storage :=
  save_data (updateFirst (fun it => it.id == issue_id) (applyUpdate text ts status) (load_data s))

/-- The delete button handler together with its ownership guard
(`app.py` lines 391-397): only when the requesting session equals the
record's `created_by` is the record removed from the collection. -/
def delete_issue (it : Issue) (requester : String) (s : Storage) : Storage :=
  if it.created_by == requester then
    save_data ((load_data s).filter (fun x => x.id != it.id))
  else s

/-- The searchable text blob of a record
(`app.py` line 204): lower-cased `"title description address"`. -/
def blobOf (it : Issue) : String :=
  pyLower (it.title ++ " " ++ it.description ++ " " ++ it.address)

/-- The sidebar filter predicate, named `matches` in `app.py`
(lines 196-207); that name is reserved in Lean. -/
def matchesFn (cat stt q user_id : String) (only_mine : Bool) (it : Issue) : Bool :=
  if cat != "all" && it.category != cat then false
  else if stt != "all" && it.status != some stt then false
  else if only_mine && it.created_by != user_id then false
  else if q != "" && !(decide (pyIn (pyLower q) (blobOf it))) then false
  else true

/-- `filtered = [it for it in data if matches(it)]` (`app.py` line 209). -/
def filtered_issues (cat stt q user_id : String) (only_mine : Bool) (data : List Issue) : List Issue :=
  data.filter (matchesFn cat stt q user_id only_mine)

/-- First component of the sort key at `app.py` line 359:
`x.get("status") != "open"`, i.e. `0` exactly for records whose status
field is present and equal to `"open"`. -/
def bucketNat (it : Issue) : Nat :=
  if it.status == some "open" then 0 else 1

/-- Lexicographic less-or-equal on code-point lists; the order Python
uses to compare the `created_at` strings of the sort key. -/
def lexLeb : List Char → List Char → Bool
  | [], _ => true
  | _ :: _, [] => false
  | a :: as, b :: bs => if a < b then true else if b < a then false else lexLeb as bs

/-- Less-or-equal on the sort key tuples
`(status != "open", -votes, created_at)` of `app.py` line 359. -/
def keyLeb (a b : Issue) : Bool :=
  if bucketNat a < bucketNat b then true
  else if bucketNat b < bucketNat a then false
  else if -votesOf a < -votesOf b then true
  else if -votesOf b < -votesOf a then false
  else lexLeb a.created_at.data b.created_at.data

/-- The display order as a relation. -/
def dispLE (a b : Issue) : Prop :=
  keyLeb a b = true

instance : DecidableRel dispLE := fun a b =>
  inferInstanceAs (Decidable (keyLeb a b = true))

/-- `sorted(filtered, key=lambda x: (x.get("status") != "open",
-x.get("votes", 0), x.get("created_at", "")))` (`app.py` line 359);
Python's `sorted` is a stable sort, modelled by insertion sort on the
key order. -/
def sort_for_display (l : List Issue) : List Issue :=
  l.insertionSort dispLE

/-- The outcome of the report-form submit handler. -/
inductive SubmitOutcome where
  | rejected : SubmitOutcome
  | accepted : Issue → SubmitOutcome
deriving DecidableEq

/-- The report-form submit handler (`app.py` lines 333-350): empty
trimmed title or description is rejected with an error message and no
write; otherwise the geocoded or picked coordinates are chosen and the
new payload is appended and saved. -/
def handle_submit (title description category : String) (lat lng : Rat)
    (address : String) (geo : Option (Rat × Rat)) (image_path : Option String)
    (issue_id user_id created_at : String) (ts : Int) (s : Storage) :
    SubmitOutcome × Storage :=
  if pyStrip title == "" || pyStrip description == "" then
    (SubmitOutcome.rejected, s)
  else
    let chosen :=
      if address != "" && pyStrip address != "" then
        match geo with
        | some c => c
        | none => (lat, lng)
      else (lat, lng)
    let payload := new_issue_payload issue_id user_id title description category
      chosen.1 chosen.2 address image_path created_at ts
    (SubmitOutcome.accepted payload, add_issue payload s)

/-- `data.find?` by id: the record a mutation would target. -/
def getIssue (issue_id : String) (l : List Issue) : Option Issue :=
  l.find? (fun it => it.id == issue_id)

/-- `n` strictly sequential calls of `upvote_issue` on the same id. -/
def upvoteN (issue_id : String) : Nat → Storage → Storage
  | 0, s => s
  | n + 1, s => upvoteN issue_id n (upvote_issue issue_id s)

/-- A sample persisted record used to instantiate the theorems. -/
def egIssue : Issue :=
  { id := "X"
    title := "Pothole on Main St"
    description := "Large pothole"
    category := "roads"
    status := some "open"
    lat := none
    lng := none
    address := ""
    image_path := none
    votes := some 0
    created_at := "2024-01-01T00:00:00Z"
    created_by := "user-7"
    updates := some [{ ts := 0, text := "Issue reported", status := "open" }] }

/-- A sample store holding exactly `egIssue`. -/
def egStore : Storage :=
  save_data [egIssue]

/-- A sample resolved record. -/
def resIssue : Issue :=
  { egIssue with id := "R", status := some "resolved" }

/-- A sample store holding exactly `resIssue`. -/
def resStore : Storage :=
  save_data [resIssue]

/-! Helper lemmas about the store primitives. -/

lemma load_save (l : List Issue) : load_data (save_data l) = l := rfl

lemma updateFirst_of_neg (p : Issue → Bool) (f : Issue → Issue) :
    ∀ l : List Issue, (∀ x ∈ l, p x = false) → updateFirst p f l = l := by
  intro l
  induction l with
  | nil => intro _; rfl
  | cons it rest ih =>
    intro h
    have h1 : p it = false := h it (by simp)
    have h2 := ih (fun x hx => h x (by simp [hx]))
    simp [updateFirst, h1, h2]

lemma updateFirst_decomp (p : Issue → Bool) (f : Issue → Issue) :
    ∀ l : List Issue, (∃ x ∈ l, p x = true) →
      ∃ l₁ r l₂, l = l₁ ++ r :: l₂ ∧ p r = true ∧ (∀ x ∈ l₁, p x = false) ∧
        updateFirst p f l = l₁ ++ f r :: l₂ := by
  intro l
  induction l with
  | nil => rintro ⟨x, hx, _⟩; simp at hx
  | cons it rest ih =>
    intro h
    by_cases h1 : p it = true
    · exact ⟨[], it, rest, rfl, h1, by simp, by simp [updateFirst, h1]⟩
    · have h1' : p it = false := by revert h1; cases p it <;> simp
      obtain ⟨x, hx, hpx⟩ := h
      have hx' : x ∈ rest := by
        rcases List.mem_cons.mp hx with he | hm
        · rw [he] at hpx; rw [hpx] at h1'; cases h1'
        · exact hm
      obtain ⟨l₁, r, l₂, e1, e2, e3, e4⟩ := ih ⟨x, hx', hpx⟩
      refine ⟨it :: l₁, r, l₂, by simp [e1], e2, ?_, by simp [updateFirst, h1', e4]⟩
      intro y hy
      rcases List.mem_cons.mp hy with he | hm
      · rw [he]; exact h1'
      · exact e3 y hm

lemma getIssue_updateFirst (issue_id : String) (f : Issue → Issue)
    (hf : ∀ x, (f x).id = x.id) :
    ∀ l : List Issue,
      getIssue issue_id (updateFirst (fun it => it.id == issue_id) f l)
        = (getIssue issue_id l).map f := by
  intro l
  induction l with
  | nil => rfl
  | cons it rest ih =>
    by_cases h : (it.id == issue_id) = true
    · have h2 : ((f it).id == issue_id) = true := by rw [hf]; exact h
      simp [updateFirst, getIssue, h, h2]
    · have h' : (it.id == issue_id) = false := by revert h; cases it.id == issue_id <;> simp
      simp only [getIssue] at ih
      simp [updateFirst, getIssue, h', ih]

lemma votesOf_bumpVotes (it : Issue) : votesOf (bumpVotes it) = votesOf it + 1 := rfl

lemma getIssue_upvote (issue_id : String) (s : Storage) :
    getIssue issue_id (load_data (upvote_issue issue_id s))
      = (getIssue issue_id (load_data s)).map bumpVotes := by
  simpa [upvote_issue, load_save] using
    getIssue_updateFirst issue_id bumpVotes (fun _ => rfl) (load_data s)

lemma upvoteN_votes (issue_id : String) :
    ∀ (n : Nat) (s : Storage),
      (getIssue issue_id (load_data (upvoteN issue_id n s))).map votesOf
        = (getIssue issue_id (load_data s)).map (fun r => votesOf r + n) := by
  intro n
  induction n with
  | zero =>
    intro s
    show (getIssue issue_id (load_data s)).map votesOf
      = (getIssue issue_id (load_data s)).map (fun r => votesOf r + ((0 : Nat) : Int))
    cases getIssue issue_id (load_data s) with
    | none => rfl
    | some r =>
      show some (votesOf r) = some (votesOf r + ((0 : Nat) : Int))
      congr 1
      omega
  | succ n ih =>
    intro s
    rw [upvoteN, ih (upvote_issue issue_id s), getIssue_upvote]
    cases getIssue issue_id (load_data s) with
    | none => rfl
    | some r =>
      show some (votesOf (bumpVotes r) + (n : Int)) = some (votesOf r + ((n + 1 : Nat) : Int))
      rw [votesOf_bumpVotes]
      congr 1
      omega

/-! The claims. -/

/-- C1: for valid creation input (trimmed title and description
non-empty) and a fresh generated id, the new payload has that fresh id
(different from every persisted record's id), status `"open"`, votes
`0`, exactly the one seed update entry `("Issue reported", "open")`,
and the trimmed title and description; appending it is what `add_issue`
persists. -/
theorem create_spec (s : Storage)
    (issue_id user_id title description category address created_at : String)
    (lat lng : Rat) (image_path : Option String) (ts : Int)
    (hfresh : ∀ r ∈ load_data s, r.id ≠ issue_id)
    (htitle : pyStrip title ≠ "") (hdesc : pyStrip description ≠ "") :
    let p := new_issue_payload issue_id user_id title description category
      lat lng address image_path created_at ts
    (∀ r ∈ load_data s, r.id ≠ p.id) ∧
    p.status = some "open" ∧
    votesOf p = 0 ∧
    updatesOf p = [{ ts := ts, text := "Issue reported", status := "open" }] ∧
    p.title = pyStrip title ∧
    p.description = pyStrip description ∧
    load_data (add_issue p s) = load_data s ++ [p] := by
  intro p
  exact ⟨fun r hr => hfresh r hr, rfl, rfl, rfl, rfl, rfl, rfl⟩

/-- Witness for C1 at a concrete store and concrete raw inputs. -/
theorem create_spec_witness :
    votesOf (new_issue_payload "Y" "u1" " Pothole " " desc " "roads"
      12 77 " addr " none "2025" 5) = 0 ∧
    (new_issue_payload "Y" "u1" " Pothole " " desc " "roads"
      12 77 " addr " none "2025" 5).status = some "open" ∧
    (new_issue_payload "Y" "u1" " Pothole " " desc " "roads"
      12 77 " addr " none "2025" 5).title = pyStrip " Pothole " := by
  have h := create_spec egStore "Y" "u1" " Pothole " " desc " "roads" " addr " "2025"
    12 77 none 5 (by decide) (by decide) (by decide)
  exact ⟨h.2.2.1, h.2.1, h.2.2.2.2.1⟩

/-- C7: when the database file is missing, or present but not decodable
as JSON, `load_data` returns the empty collection instead of
propagating an error. -/
theorem load_data_tolerant (s : Storage)
    (h : s.file = none ∨ s.file = some StoredDoc.undecodable) :
    load_data s = [] := by
  rcases h with h | h <;> simp [load_data, h]

/-- Witness for C7 on the two degenerate stores. -/
theorem load_data_tolerant_witness :
    load_data { file := none } = [] ∧
    load_data { file := some StoredDoc.undecodable } = [] :=
  ⟨load_data_tolerant _ (Or.inl rfl), load_data_tolerant _ (Or.inr rfl)⟩

/-- C8: when the trimmed title or trimmed description is empty, the
submit handler rejects the input (validation error branch) and returns
the storage unchanged: no record is added and no file is written. -/
theorem handle_submit_rejects (s : Storage)
    (title description category address : String) (lat lng : Rat)
    (geo : Option (Rat × Rat)) (image_path : Option String)
    (issue_id user_id created_at : String) (ts : Int)
    (h : pyStrip title = "" ∨ pyStrip description = "") :
    handle_submit title description category lat lng address geo image_path
      issue_id user_id created_at ts s = (SubmitOutcome.rejected, s) := by
  rcases h with h | h <;> simp [handle_submit, h]

/-- Witness for C8: a whitespace-only title is rejected without a write. -/
theorem handle_submit_rejects_witness :
    handle_submit "   " "desc" "roads" 1 2 "" none none "Y" "u" "2025" 0 egStore
      = (SubmitOutcome.rejected, egStore) :=
  handle_submit_rejects egStore "   " "desc" "roads" "" 1 2 none none
    "Y" "u" "2025" 0 (Or.inl (by decide))

/-- C9: when no record carries the targeted id, `upvote_issue`,
`update_issue` (the back-fill path) and `add_update` all leave the
loaded collection exactly as it was before the call. -/
theorem missing_id_mutations_noop (s : Storage) (issue_id text : String)
    (ts : Int) (st : Option String) (patch : Issue → Issue)
    (h : ∀ r ∈ load_data s, r.id ≠ issue_id) :
    load_data (upvote_issue issue_id s) = load_data s ∧
    load_data (update_issue issue_id patch s) = load_data s ∧
    load_data (add_update issue_id text ts st s) = load_data s := by
  have hp : ∀ x ∈ load_data s, (x.id == issue_id) = false := by
    intro x hx
    simpa [beq_eq_false_iff_ne] using h x hx
  refine ⟨?_, ?_, ?_⟩ <;>
    simp [upvote_issue, update_issue, add_update, load_save,
      updateFirst_of_neg _ _ _ hp]

/-- C2: upvoting an id present in the collection replaces the first
record carrying that id by the same record with `votes` one higher
(`bumpVotes` changes no other field) and leaves every other record in
place; `n` strictly sequential upvotes starting from a record with
effective votes `0` leave votes `n`. -/
theorem upvote_issue_spec (s : Storage) (issue_id : String)
    (hmem : ∃ r ∈ load_data s, r.id = issue_id) :
    (∃ l₁ r l₂, load_data s = l₁ ++ r :: l₂ ∧ r.id = issue_id ∧
        (∀ x ∈ l₁, x.id ≠ issue_id) ∧
        load_data (upvote_issue issue_id s) = l₁ ++ bumpVotes r :: l₂) ∧
    (∀ (n : Nat) (r₀ : Issue),
        getIssue issue_id (load_data s) = some r₀ → votesOf r₀ = 0 →
        (getIssue issue_id (load_data (upvoteN issue_id n s))).map votesOf
          = some (n : Int)) := by
  constructor
  · obtain ⟨x, hx, hid⟩ := hmem
    obtain ⟨l₁, r, l₂, e1, e2, e3, e4⟩ :=
      updateFirst_decomp (fun it => it.id == issue_id) bumpVotes (load_data s)
        ⟨x, hx, by simpa [beq_iff_eq] using hid⟩
    refine ⟨l₁, r, l₂, e1, by simpa [beq_iff_eq] using e2,
      fun y hy => by simpa [beq_eq_false_iff_ne] using e3 y hy, ?_⟩
    simpa [upvote_issue, load_save] using e4
  · intro n r₀ h0 hv
    rw [upvoteN_votes issue_id n s, h0]
    simp [hv]

/-- Witness for C2: two sequential upvotes of the fresh record `"X"`
leave votes 2. -/
theorem upvote_issue_spec_witness :
    (getIssue "X" (load_data (upvoteN "X" 2 egStore))).map votesOf = some (2 : Int) := by
  have h := (upvote_issue_spec egStore "X" ⟨egIssue, by decide, rfl⟩).2 2 egIssue
    (by decide) (by decide)
  simpa using h

lemma applyUpdate_none (text : String) (ts : Int) (it : Issue) :
    applyUpdate text ts none it
      = { it with updates := some (updatesOf it ++
          [{ ts := ts, text := text, status := statusOf it }]) } := rfl

lemma applyUpdate_some (text : String) (ts : Int) (st : String) (hst : st ≠ "")
    (it : Issue) :
    applyUpdate text ts (some st) it
      = { it with status := some st
                  updates := some (updatesOf it ++
                    [{ ts := ts, text := text, status := st }]) } := by
  have h1 : (st != "") = true := by simpa [bne_iff_ne] using hst
  simp [applyUpdate, truthy, entryStatus, h1]

/-- C3: on an id present in the collection, `add_update` appends exactly
one log entry to the first record carrying that id; with a (non-empty)
new status the record's `status` is overwritten and the entry carries
it, with no constraint relating it to the previous status; with the
status argument omitted the record's `status` field is untouched and
the entry carries the record's current status.  Every other record is
unchanged. -/
theorem add_update_spec (s : Storage) (issue_id text st : String) (ts : Int)
    (hmem : ∃ r ∈ load_data s, r.id = issue_id) (hst : st ≠ "") :
    (∃ l₁ r l₂, load_data s = l₁ ++ r :: l₂ ∧ r.id = issue_id ∧
        (∀ x ∈ l₁, x.id ≠ issue_id) ∧
        load_data (add_update issue_id text ts (some st) s)
          = l₁ ++ { r with status := some st
                           updates := some (updatesOf r ++
                             [{ ts := ts, text := text, status := st }]) } :: l₂) ∧
    (∃ l₁ r l₂, load_data s = l₁ ++ r :: l₂ ∧ r.id = issue_id ∧
        (∀ x ∈ l₁, x.id ≠ issue_id) ∧
        load_data (add_update issue_id text ts none s)
          = l₁ ++ { r with updates := some (updatesOf r ++
                [{ ts := ts, text := text, status := statusOf r }]) } :: l₂) := by
  obtain ⟨x, hx, hid⟩ := hmem
  have hx' : ∃ y ∈ load_data s, (fun it => it.id == issue_id) y = true :=
    ⟨x, hx, by simpa [beq_iff_eq] using hid⟩
  constructor
  · obtain ⟨l₁, r, l₂, e1, e2, e3, e4⟩ :=
      updateFirst_decomp (fun it => it.id == issue_id)
        (applyUpdate text ts (some st)) (load_data s) hx'
    refine ⟨l₁, r, l₂, e1, by simpa [beq_iff_eq] using e2,
      fun y hy => by simpa [beq_eq_false_iff_ne] using e3 y hy, ?_⟩
    have e5 : load_data (add_update issue_id text ts (some st) s)
        = updateFirst (fun it => it.id == issue_id)
            (applyUpdate text ts (some st)) (load_data s) := rfl
    rw [e5, e4, applyUpdate_some text ts st hst r]
  · obtain ⟨l₁, r, l₂, e1, e2, e3, e4⟩ :=
      updateFirst_decomp (fun it => it.id == issue_id)
        (applyUpdate text ts none) (load_data s) hx'
    refine ⟨l₁, r, l₂, e1, by simpa [beq_iff_eq] using e2,
      fun y hy => by simpa [beq_eq_false_iff_ne] using e3 y hy, ?_⟩
    have e5 : load_data (add_update issue_id text ts none s)
        = updateFirst (fun it => it.id == issue_id)
            (applyUpdate text ts none) (load_data s) := rfl
    rw [e5, e4, applyUpdate_none text ts r]

/-- Witness for C3 on the sample resolved record: reopening
(`resolved` to `"open"`) is permitted and behaves as stated. -/
theorem add_update_spec_witness :
    (∃ l₁ r l₂, load_data resStore = l₁ ++ r :: l₂ ∧ r.id = "R" ∧
        (∀ x ∈ l₁, x.id ≠ "R") ∧
        load_data (add_update "R" "Reopened" 9 (some "open") resStore)
          = l₁ ++ { r with status := some "open"
                           updates := some (updatesOf r ++
                             [{ ts := 9, text := "Reopened", status := "open" }]) } :: l₂) ∧
    (∃ l₁ r l₂, load_data resStore = l₁ ++ r :: l₂ ∧ r.id = "R" ∧
        (∀ x ∈ l₁, x.id ≠ "R") ∧
        load_data (add_update "R" "Reopened" 9 none resStore)
          = l₁ ++ { r with updates := some (updatesOf r ++
                [{ ts := 9, text := "Reopened", status := statusOf r }]) } :: l₂) :=
  add_update_spec resStore "R" "Reopened" "open" 9 ⟨resIssue, by decide, rfl⟩
    (by decide)

/-- C4: the delete handler removes the record exactly when the
requesting session equals the record's `created_by`; otherwise the
collection is untouched (so the record is still retrievable). -/
theorem delete_issue_spec (s : Storage) (it : Issue) (requester : String) :
    (it.created_by = requester →
        load_data (delete_issue it requester s)
          = (load_data s).filter (fun x => x.id != it.id) ∧
        getIssue it.id (load_data (delete_issue it requester s)) = none) ∧
    (it.created_by ≠ requester →
        load_data (delete_issue it requester s) = load_data s) := by
  constructor
  · intro h
    have hb : (it.created_by == requester) = true := by simpa [beq_iff_eq] using h
    have e : delete_issue it requester s
        = save_data ((load_data s).filter (fun x => x.id != it.id)) := by
      simp [delete_issue, hb]
    refine ⟨by rw [e]; rfl, ?_⟩
    rw [e]
    show List.find? (fun x => x.id == it.id)
      ((load_data s).filter (fun x => x.id != it.id)) = none
    rw [List.find?_eq_none]
    intro x hx
    have h2 := (List.mem_filter.mp hx).2
    simp only [bne_iff_ne, ne_eq] at h2
    simpa [beq_iff_eq] using h2
  · intro h
    have hb : (it.created_by == requester) = false := by
      simpa [beq_eq_false_iff_ne] using h
    simp [delete_issue, hb]

/-- Witness for C4: a non-owner request leaves the sample store
unchanged; the owner's request removes record `"X"`. -/
theorem delete_issue_spec_witness :
    load_data (delete_issue egIssue "user-42" egStore) = load_data egStore ∧
    getIssue "X" (load_data (delete_issue egIssue "user-7" egStore)) = none := by
  refine ⟨(delete_issue_spec egStore egIssue "user-42").2 (by decide), ?_⟩
  exact ((delete_issue_spec egStore egIssue "user-7").1 (by decide)).2

lemma applyUpdate_empty_eq_none (text : String) (ts : Int) :
    applyUpdate text ts (some "") = applyUpdate text ts none := by
  funext it
  simp [applyUpdate, truthy, entryStatus]

/-- C10: passing the empty string as the new status behaves exactly as
omitting the argument, because the code tests the argument for
truthiness: the record's `status` field stays untouched and the
appended entry carries the record's current status, which defaults to
`"open"` when the record has no status field. -/
theorem add_update_empty_status (s : Storage) (issue_id text : String) (ts : Int) :
    add_update issue_id text ts (some "") s = add_update issue_id text ts none s ∧
    (∀ it : Issue, applyUpdate text ts (some "") it
        = { it with updates := some (updatesOf it ++
            [{ ts := ts, text := text, status := statusOf it }]) }) ∧
    (∀ it : Issue, it.status = none → statusOf it = "open") := by
  refine ⟨?_, ?_, ?_⟩
  · simp only [add_update, applyUpdate_empty_eq_none]
  · intro it
    rw [applyUpdate_empty_eq_none]
    exact applyUpdate_none text ts it
  · intro it h
    simp [statusOf, h]

/-- Witness for C10 on the sample store. -/
theorem add_update_empty_status_witness :
    add_update "X" "note" 7 (some "") egStore = add_update "X" "note" 7 none egStore :=
  (add_update_empty_status egStore "X" "note" 7).1

/-- Witness for C9: the id `"Z"` is absent from the sample store. -/
theorem missing_id_mutations_noop_witness :
    load_data (upvote_issue "Z" egStore) = load_data egStore ∧
    load_data (update_issue "Z" (backfillPatch 12 77) egStore) = load_data egStore ∧
    load_data (add_update "Z" "note" 3 (some "resolved") egStore) = load_data egStore :=
  missing_id_mutations_noop egStore "Z" "note" 3 (some "resolved")
    (backfillPatch 12 77) (by decide)

lemma matchesFn_iff (cat stt q user_id : String) (only_mine : Bool) (it : Issue) :
    matchesFn cat stt q user_id only_mine it = true ↔
      (cat = "all" ∨ it.category = cat) ∧
      (stt = "all" ∨ it.status = some stt) ∧
      (only_mine = true → it.created_by = user_id) ∧
      (q ≠ "" → pyIn (pyLower q) (blobOf it)) := by
  unfold matchesFn
  split_ifs with h1 h2 h3 h4 <;> simp_all [bne_iff_ne] <;> tauto

/-- C6: a record survives the sidebar filter exactly when its category
matches the criterion or the criterion is `"all"`, its status field
equals the status criterion or that is `"all"`, under "only my issues"
its `created_by` equals the session id, and for a non-empty query the
lower-cased query occurs in the lower-cased blob
`title ++ " " ++ description ++ " " ++ address` — all conjoined. -/
theorem filter_matches_spec (cat stt q user_id : String) (only_mine : Bool)
    (data : List Issue) (it : Issue) :
    it ∈ filtered_issues cat stt q user_id only_mine data ↔
      it ∈ data ∧
      (cat = "all" ∨ it.category = cat) ∧
      (stt = "all" ∨ it.status = some stt) ∧
      (only_mine = true → it.created_by = user_id) ∧
      (q ≠ "" → pyIn (pyLower q) (blobOf it)) := by
  rw [filtered_issues, List.mem_filter, matchesFn_iff]

/-- Witness for C6 at a concrete record and criteria. -/
theorem filter_matches_spec_witness :
    egIssue ∈ filtered_issues "all" "all" "hole" "u" false [egIssue] :=
  (filter_matches_spec "all" "all" "hole" "u" false [egIssue] egIssue).mpr
    (by decide)

/-! Order lemmas for the display sort key. -/

lemma lexLeb_total : ∀ as bs : List Char, lexLeb as bs = true ∨ lexLeb bs as = true := by
  intro as
  induction as with
  | nil => intro bs; left; rfl
  | cons a as ih =>
    intro bs
    cases bs with
    | nil => right; rfl
    | cons b bs =>
      rcases lt_trichotomy a b with h | h | h
      · left; simp [lexLeb, h]
      · subst h
        have hna : ¬ a < a := lt_irrefl a
        rcases ih bs with h2 | h2
        · left; simp [lexLeb, hna, h2]
        · right; simp [lexLeb, hna, h2]
      · right; simp [lexLeb, h]

lemma lexLeb_trans : ∀ as bs cs : List Char,
    lexLeb as bs = true → lexLeb bs cs = true → lexLeb as cs = true := by
  intro as
  induction as with
  | nil => intro bs cs _ _; rfl
  | cons a as ih =>
    intro bs cs h1 h2
    cases bs with
    | nil => exact absurd h1 (by simp [lexLeb])
    | cons b bs =>
      cases cs with
      | nil => exact absurd h2 (by simp [lexLeb])
      | cons c cs =>
        rcases lt_trichotomy a b with hab | hab | hab
        · rcases lt_trichotomy b c with hbc | hbc | hbc
          · simp [lexLeb, lt_trans hab hbc]
          · subst hbc; simp [lexLeb, hab]
          · exfalso
            have hn1 : ¬ b < c := lt_asymm hbc
            simp [lexLeb, hn1, hbc] at h2
        · subst hab
          rcases lt_trichotomy a c with hac | hac | hac
          · simp [lexLeb, hac]
          · subst hac
            have hna : ¬ a < a := lt_irrefl a
            simp only [lexLeb, if_neg hna] at h1 h2 ⊢
            exact ih bs cs h1 h2
          · exfalso
            have hn1 : ¬ a < c := lt_asymm hac
            simp [lexLeb, hn1, hac] at h2
        · exfalso
          have hn1 : ¬ a < b := lt_asymm hab
          simp [lexLeb, hn1, hab] at h1

lemma keyLeb_true_iff (a b : Issue) :
    keyLeb a b = true ↔
      bucketNat a < bucketNat b ∨
      (bucketNat a = bucketNat b ∧ (-votesOf a < -votesOf b ∨
        (-votesOf a = -votesOf b ∧
          lexLeb a.created_at.data b.created_at.data = true))) := by
  unfold keyLeb
  split_ifs with h1 h2 h3 h4
  · exact iff_of_true rfl (Or.inl h1)
  · exact iff_of_false (by simp)
      (fun h => by rcases h with h | ⟨h, _⟩ <;> omega)
  · exact iff_of_true rfl (Or.inr ⟨by omega, Or.inl h3⟩)
  · exact iff_of_false (by simp)
      (fun h => by rcases h with h | ⟨h, h' | ⟨h', _⟩⟩ <;> omega)
  · constructor
    · intro h
      exact Or.inr ⟨by omega, Or.inr ⟨by omega, h⟩⟩
    · rintro (h | ⟨h, h' | ⟨h', hl⟩⟩)
      · omega
      · omega
      · exact hl

lemma keyLeb_total (a b : Issue) : keyLeb a b = true ∨ keyLeb b a = true := by
  rw [keyLeb_true_iff, keyLeb_true_iff]
  rcases Nat.lt_trichotomy (bucketNat a) (bucketNat b) with h | h | h
  · exact Or.inl (Or.inl h)
  · rcases Int.lt_trichotomy (-votesOf a) (-votesOf b) with h2 | h2 | h2
    · exact Or.inl (Or.inr ⟨h, Or.inl h2⟩)
    · rcases lexLeb_total a.created_at.data b.created_at.data with h3 | h3
      · exact Or.inl (Or.inr ⟨h, Or.inr ⟨h2, h3⟩⟩)
      · exact Or.inr (Or.inr ⟨h.symm, Or.inr ⟨by omega, h3⟩⟩)
    · exact Or.inr (Or.inr ⟨h.symm, Or.inl h2⟩)
  · exact Or.inr (Or.inl h)

lemma keyLeb_trans (a b c : Issue) (h1 : keyLeb a b = true)
    (h2 : keyLeb b c = true) : keyLeb a c = true := by
  rw [keyLeb_true_iff] at h1 h2 ⊢
  rcases h1 with h1 | ⟨e1, h1⟩
  · rcases h2 with h2 | ⟨e2, h2⟩
    · exact Or.inl (by omega)
    · exact Or.inl (by omega)
  · rcases h2 with h2 | ⟨e2, h2⟩
    · exact Or.inl (by omega)
    · refine Or.inr ⟨by omega, ?_⟩
      rcases h1 with h1 | ⟨v1, l1⟩
      · rcases h2 with h2 | ⟨v2, l2⟩
        · exact Or.inl (by omega)
        · exact Or.inl (by omega)
      · rcases h2 with h2 | ⟨v2, l2⟩
        · exact Or.inl (by omega)
        · exact Or.inr ⟨by omega, lexLeb_trans _ _ _ l1 l2⟩

instance : IsTotal Issue dispLE :=
  ⟨keyLeb_total⟩

instance : IsTrans Issue dispLE :=
  ⟨keyLeb_trans⟩

/-- The display ordering in the vocabulary of the specification:
records in the `"open"` bucket (`bucketNat` 0) precede records of every
other status (`bucketNat` 1); inside one bucket, strictly more votes
first; with equal buckets and votes, `created_at` lexicographically
non-decreasing. -/
def dispOrd (a b : Issue) : Prop :=
  (bucketNat a = 0 ∧ bucketNat b = 1) ∨
  (bucketNat a = bucketNat b ∧ votesOf b < votesOf a) ∨
  (bucketNat a = bucketNat b ∧ votesOf a = votesOf b ∧
    lexLeb a.created_at.data b.created_at.data = true)

lemma bucketNat_cases (a : Issue) : bucketNat a = 0 ∨ bucketNat a = 1 := by
  unfold bucketNat
  split_ifs <;> simp

lemma dispLE_imp_dispOrd (a b : Issue) (h : dispLE a b) : dispOrd a b := by
  unfold dispLE at h
  rw [keyLeb_true_iff] at h
  have ha := bucketNat_cases a
  have hb := bucketNat_cases b
  rcases h with h | ⟨e, h | ⟨h, hl⟩⟩
  · exact Or.inl (by omega)
  · exact Or.inr (Or.inl ⟨e, by omega⟩)
  · exact Or.inr (Or.inr ⟨e, by omega, hl⟩)

/-- A sample in-progress record with 5 votes. -/
def ipIssue : Issue :=
  { egIssue with id := "A", status := some "in_progress", votes := some 5 }

/-- A sample resolved record with 10 votes. -/
def rsIssue : Issue :=
  { egIssue with id := "B", status := some "resolved", votes := some 10 }

/-- C5 counterexample: the first key component is
`x.get("status") != "open"`, so an in-progress record is bucketed with
resolved records, not before them: here the resolved record (10 votes)
is displayed before the in-progress record (5 votes). -/
theorem sort_for_display_counterexample :
    ipIssue.status = some "in_progress" ∧ rsIssue.status = some "resolved" ∧
    sort_for_display [ipIssue, rsIssue] = [rsIssue, ipIssue] :=
  ⟨rfl, rfl, by decide⟩

/-- C5 amended: `sort_for_display` is a permutation of its input in
which every record with status field `"open"` comes before every record
with any other status value (in-progress and resolved share the second
bucket); within the same bucket records are ordered by descending
votes; ties are broken by ascending `created_at`. -/
theorem sort_for_display_spec (l : List Issue) :
    (sort_for_display l).Perm l ∧ (sort_for_display l).Pairwise dispOrd := by
  constructor
  · exact List.perm_insertionSort dispLE l
  · exact List.Pairwise.imp (fun hab => dispLE_imp_dispOrd _ _ hab)
      (List.sorted_insertionSort dispLE l)

end CrowdIssue
